import Mathlib

/-!
Verification of the Nunmerdox OSINT core (`src/nunmerdox/osint.py` and the
parameter gate of the CLI `scan` command in `src/nunmerdox/cli.py`).

The Python functions are shallowly embedded:
* `build_osint_queries` builds the raw query list and deduplicates it with a
  `seen`-set loop; we embed the raw list (`rawQueries`) and the dedup loop
  (`dedupeGo`, where membership in the output list mirrors membership in the
  Python `seen` set, which always holds exactly the elements of `out`).
* `search_duckduckgo` performs an HTTP request and parses the response.  The
  effectful part is abstracted as a `Page`: either the request/parse failed
  (`Page.fail`, i.e. `requests` raised or the HTML could not be fetched —
  caught by the outer `except`, returning the empty `results` list) or it
  yielded a list of result `div`s, each embedded as a `RawHit`.
* `perform_osint` is embedded as `perform_osint_run`, parameterised by a
  backend `String → Page` (which page each query's HTTP request produces).
  Its side effects are made observable in a `Trace`: the records accumulated,
  the queries dispatched to the backend (in order), the number of completed
  `time.sleep(delay)` calls, and whether an exception escaped
  (`time.sleep` raises `ValueError` on a negative argument; it sits *outside*
  the per-query `try`, so it propagates out of `perform_osint`).
* the `scan` CLI command's control flow up to `run_scan` is embedded as
  `scan_dispatch`.
-/

namespace Nunmerdox

/-- One backend hit as returned by `search_duckduckgo`:
the dict `{"title": ..., "href": ..., "body": ...}`. -/
structure SearchResult where
  title : String
  href : String
  body : String
  deriving Repr, DecidableEq

/-- One aggregated record as returned by `perform_osint`:
the dict `{"query": q, **it}` with keys `query`, `title`, `href`, `body`. -/
structure OsintRecord where
  query : String
  title : String
  href : String
  body : String
  deriving Repr, DecidableEq

/-- One `div.result` element of the parsed DuckDuckGo page, as seen by the
per-result parsing block of `search_duckduckgo`:
* `noLink` — no `a.result__url` anchor was found (`if not link: continue`);
* `parseError` — the per-result parsing raised (`except Exception: continue`);
* `hit href title body` — the anchor was found; `href` is `link.get('href', '')`
  (empty when the attribute is missing), `title` is the stripped text of
  `a.result__title` (empty when absent), `body` the stripped text of
  `a.result__snippet` (empty when absent). -/
inductive RawHit where
  | noLink
  | parseError
  | hit (href title body : String)
  deriving Repr, DecidableEq

/-- The outcome of the HTTP request + HTML parse inside `search_duckduckgo`:
`fail` when `requests.get`/`raise_for_status`/parsing raised (caught by the
outer `except` clauses), `ok hits` when a page with the given result divs
was obtained. -/
inductive Page where
  | fail
  | ok (hits : List RawHit)
  deriving Repr, DecidableEq

/-- The raw query list `q` built by `build_osint_queries` before deduplication:
the quoted `e164`, the quoted `intl` when present, then the fixed
social/contact/site vocabulary (9 entries). -/
def rawQueries (e164 : String) (intl : Option String) : List String :=
  (["\"" ++ e164 ++ "\""]
    ++ (match intl with
        | some s => if s = "" then [] else ["\"" ++ s ++ "\""]
        | none => []))
  ++ [ e164 ++ " facebook",
       e164 ++ " twitter",
       e164 ++ " instagram",
       e164 ++ " whatsapp",
       e164 ++ " \"contacto\"",
       e164 ++ " \"teléfono\"",
       e164 ++ " site:pastebin.com",
       e164 ++ " site:reddit.com",
       e164 ++ " site:linkedin.com" ]

/-- The dedup loop of `build_osint_queries`: `seen` is a set that always holds
exactly the elements of `out`, so `item not in seen` is embedded as
`item ∉ out`. -/
def dedupeGo : List String → List String → List String
  | [], out => out
  | x :: rest, out =>
      if x ∈ out then dedupeGo rest out
      else dedupeGo rest (out ++ [x])

/-- Embedding of `build_osint_queries(e164, intl)`: the raw list, then the
dedup loop preserving order.  The Python `if intl:` check treats both `None`
and the empty string as absent. -/
def build_osint_queries (e164 : String) (intl : Option String) : List String :=
  dedupeGo (rawQueries e164 intl) []

/-- The result-div loop of `search_duckduckgo`: before parsing each div the cap
is checked (`if len(results) >= max_results: break`); a div with no
`a.result__url` anchor or a parse error is skipped; a parsed hit is appended
only `if href and title` (both non-empty). -/
def ddgLoop (max_results : Int) : List RawHit → List SearchResult → List SearchResult
  | [], results => results
  | h :: rest, results =>
      if (results.length : Int) ≥ max_results then results
      else
        match h with
        | .noLink => ddgLoop max_results rest results
        | .parseError => ddgLoop max_results rest results
        | .hit href title body =>
            if href ≠ "" ∧ title ≠ "" then
              ddgLoop max_results rest (results ++ [⟨title, href, body⟩])
            else ddgLoop max_results rest results

/-- Embedding of `search_duckduckgo(query, max_results)` given the `Page` its
HTTP request produced.  On `Page.fail` every exception is caught and the
(still empty) `results` list is returned; it never raises. -/
def search_duckduckgo (page : Page) (max_results : Int) : List SearchResult :=
  match page with
  | .fail => []
  | .ok hits => ddgLoop max_results hits []

/-- Tag a backend hit with the query that produced it: `{"query": q, **it}`. -/
def tagRecord (q : String) (r : SearchResult) : OsintRecord :=
  ⟨q, r.title, r.href, r.body⟩

/-- Observable trace of one `perform_osint` run: the accumulated `results`
list, the queries dispatched to the backend in order, the number of completed
`time.sleep(delay)` calls, and the exception that escaped, if any. -/
structure Trace where
  records : List OsintRecord
  calls : List String
  sleeps : Nat
  raised : Option String
  deriving Repr, DecidableEq

/-- The per-query loop of `perform_osint`.  Each iteration calls
`search_duckduckgo` (which never raises, so the `except` clause is never
taken), appends the tagged items `if items`, then runs `time.sleep(delay)` —
outside the `try`, so with a negative `delay` the `ValueError` propagates and
aborts the loop. -/
def performGo (backend : String → Page) (max_results : Int) (delay : ℚ) :
    List String → List OsintRecord → List String → Nat → Trace
  | [], acc, calls, sleeps => ⟨acc, calls, sleeps, none⟩
  | q :: rest, acc, calls, sleeps =>
      let items := search_duckduckgo (backend q) max_results
      let acc := if items.isEmpty then acc else acc ++ items.map (tagRecord q)
      let calls := calls ++ [q]
      if delay < 0 then ⟨acc, calls, sleeps, some "ValueError"⟩
      else performGo backend max_results delay rest acc calls (sleeps + 1)

/-- Embedding of `perform_osint(e164, intl, max_results, delay)` run against
the given backend.  Note: it performs no validation of `max_results` or
`delay`. -/
def perform_osint_run (backend : String → Page) (e164 : String)
    (intl : Option String) (max_results : Int) (delay : ℚ) : Trace :=
  performGo backend max_results delay (build_osint_queries e164 intl) [] [] 0

/-- Outcome of the `scan` CLI command's control flow before `run_scan`. -/
inductive ScanOutcome where
  | interactive
  | ethicsExit
  | paramExit
  | runScan
  deriving Repr, DecidableEq

/-- The dispatch logic of the `scan` command in `cli.py`: empty `numbers`
forces interactive mode; `--agree-ethics` is required; then, with `--osint`,
`osint_max < 1` or `osint_delay < 0` exits with an error *before*
`run_scan` (and hence `perform_osint`) is reached. -/
def scan_dispatch (numbers : List String) (interactive agree_ethics osint : Bool)
    (osint_max : Int) (osint_delay : ℚ) : ScanOutcome :=
  let interactive := if numbers.isEmpty ∧ ¬ interactive then true else interactive
  if interactive then .interactive
  else if ¬ agree_ethics then .ethicsExit
  else if osint ∧ (osint_max < 1 ∨ osint_delay < 0) then .paramExit
  else .runScan

/-- Specification-style first-occurrence-wins deduplication: keep each element
the first time it appears and drop all its later occurrences.  Used to state
that the dedup loop of `build_osint_queries` preserves insertion order with
the first occurrence winning. -/
def firstWins : List String → List String
  | [] => []
  | x :: rest => x :: firstWins (rest.filter (fun y => y ≠ x))
termination_by l => l.length
decreasing_by
  simp only [List.length_cons]
  exact Nat.lt_succ_of_le (List.length_filter_le _ _)

/-- The contribution of one query to the output of `perform_osint`: the
backend results for that query, each tagged with the query string. -/
def queryBlock (backend : String → Page) (max_results : Int) (q : String) :
    List OsintRecord :=
  (search_duckduckgo (backend q) max_results).map (tagRecord q)

lemma dedupeGo_eq_firstWins :
    ∀ (l out : List String),
      dedupeGo l out = out ++ firstWins (l.filter (fun x => x ∉ out)) := by
  intro l
  induction l with
  | nil => intro out; simp [dedupeGo, firstWins]
  | cons x rest ih =>
      intro out
      by_cases hx : x ∈ out
      · simp only [dedupeGo]
        rw [if_pos hx, ih out]
        have hfilter : (x :: rest).filter (fun y => y ∉ out) =
            rest.filter (fun y => y ∉ out) := by
          simp [List.filter_cons, hx]
        rw [hfilter]
      · simp only [dedupeGo]
        rw [if_neg hx, ih (out ++ [x])]
        have hfilter : (x :: rest).filter (fun y => y ∉ out) =
            x :: rest.filter (fun y => y ∉ out) := by
          simp [List.filter_cons, hx]
        rw [hfilter, firstWins, List.filter_filter]
        have hsame : rest.filter (fun y => y ∉ out ++ [x]) =
            rest.filter (fun a => decide (a ≠ x) && decide (a ∉ out)) := by
          apply List.filter_congr
          intro y _
          by_cases h1 : y = x <;> by_cases h2 : y ∈ out <;>
            simp [h1, h2, List.mem_append]
        rw [hsame, List.append_assoc]
        rfl

lemma dedupeGo_nodup :
    ∀ (l out : List String), out.Nodup → (dedupeGo l out).Nodup := by
  intro l
  induction l with
  | nil => intro out h; simpa [dedupeGo] using h
  | cons x rest ih =>
      intro out h
      by_cases hx : x ∈ out
      · simp only [dedupeGo]; rw [if_pos hx]; exact ih out h
      · simp only [dedupeGo]; rw [if_neg hx]
        apply ih
        rw [List.nodup_append]
        refine ⟨h, List.nodup_singleton x, ?_⟩
        intro a ha hax
        rw [List.mem_singleton] at hax
        exact hx (hax ▸ ha)

lemma build_eq_firstWins (e164 : String) (intl : Option String) :
    build_osint_queries e164 intl = firstWins (rawQueries e164 intl) := by
  rw [build_osint_queries, dedupeGo_eq_firstWins]
  simp

lemma build_nodup (e164 : String) (intl : Option String) :
    (build_osint_queries e164 intl).Nodup :=
  dedupeGo_nodup _ [] List.nodup_nil

lemma performGo_nonneg (backend : String → Page) (m : Int) {delay : ℚ}
    (hd : 0 ≤ delay) :
    ∀ (qs : List String) (acc : List OsintRecord) (calls : List String)
      (sleeps : Nat),
      performGo backend m delay qs acc calls sleeps =
        ⟨acc ++ qs.flatMap (queryBlock backend m), calls ++ qs,
          sleeps + qs.length, none⟩ := by
  intro qs
  induction qs with
  | nil => intro acc calls sleeps; simp [performGo]
  | cons q rest ih =>
      intro acc calls sleeps
      have hlt : ¬ delay < 0 := not_lt.mpr hd
      simp only [performGo, hlt, if_false]
      rw [ih]
      have hacc : (if (search_duckduckgo (backend q) m).isEmpty then acc
          else acc ++ (search_duckduckgo (backend q) m).map (tagRecord q)) =
          acc ++ queryBlock backend m q := by
        by_cases he : (search_duckduckgo (backend q) m).isEmpty
        · rw [if_pos he]
          rw [List.isEmpty_iff] at he
          simp [queryBlock, he]
        · rw [if_neg he]; rfl
      rw [hacc]
      simp only [List.flatMap_cons, List.append_assoc, List.singleton_append,
        List.length_cons]
      have hs : sleeps + 1 + rest.length = sleeps + (rest.length + 1) := by
        omega
      rw [hs]

lemma performGo_records_mem (backend : String → Page) (m : Int) (delay : ℚ) :
    ∀ (qs : List String) (acc : List OsintRecord) (calls : List String)
      (sleeps : Nat) (rec : OsintRecord),
      rec ∈ (performGo backend m delay qs acc calls sleeps).records →
      rec ∈ acc ∨ ∃ q r, r ∈ search_duckduckgo (backend q) m ∧ rec = tagRecord q r := by
  intro qs
  induction qs with
  | nil => intro acc calls sleeps rec h; exact Or.inl (by simpa [performGo] using h)
  | cons q rest ih =>
      intro acc calls sleeps rec h
      simp only [performGo] at h
      have hmem : ∀ rec : OsintRecord,
          rec ∈ (if (search_duckduckgo (backend q) m).isEmpty then acc
            else acc ++ (search_duckduckgo (backend q) m).map (tagRecord q)) →
          rec ∈ acc ∨ ∃ qq r, r ∈ search_duckduckgo (backend qq) m ∧
            rec = tagRecord qq r := by
        intro rec hr
        by_cases he : (search_duckduckgo (backend q) m).isEmpty
        · rw [if_pos he] at hr; exact Or.inl hr
        · rw [if_neg he, List.mem_append] at hr
          rcases hr with hr | hr
          · exact Or.inl hr
          · rcases List.mem_map.mp hr with ⟨r, hr1, hr2⟩
            exact Or.inr ⟨q, r, hr1, hr2.symm⟩
      by_cases hlt : delay < 0
      · rw [if_pos hlt] at h
        exact hmem rec h
      · rw [if_neg hlt] at h
        rcases ih _ _ _ rec h with hin | hex
        · exact hmem rec hin
        · exact Or.inr hex

lemma ddgLoop_length_le (m : Int) :
    ∀ (hits : List RawHit) (acc : List SearchResult),
      (acc.length : Int) ≤ m → ((ddgLoop m hits acc).length : Int) ≤ m := by
  intro hits
  induction hits with
  | nil => intro acc h; simpa [ddgLoop] using h
  | cons h rest ih =>
      intro acc hacc
      by_cases hge : (acc.length : Int) ≥ m
      · cases h <;> (simp only [ddgLoop]; rw [if_pos hge]) <;> exact hacc
      · have hlt : (acc.length : Int) < m := not_le.mp hge
        cases h with
        | noLink => simp only [ddgLoop]; rw [if_neg hge]; exact ih acc hacc
        | parseError => simp only [ddgLoop]; rw [if_neg hge]; exact ih acc hacc
        | hit href title body =>
            simp only [ddgLoop]
            rw [if_neg hge]
            by_cases hc : href ≠ "" ∧ title ≠ ""
            · rw [if_pos hc]
              apply ih
              rw [List.length_append, List.length_singleton]
              push_cast
              omega
            · rw [if_neg hc]; exact ih acc hacc

lemma ddgLoop_mem (m : Int) :
    ∀ (hits : List RawHit) (acc : List SearchResult) (r : SearchResult),
      r ∈ ddgLoop m hits acc → r ∈ acc ∨ (r.title ≠ "" ∧ r.href ≠ "") := by
  intro hits
  induction hits with
  | nil => intro acc r h; exact Or.inl (by simpa [ddgLoop] using h)
  | cons h rest ih =>
      intro acc r hr
      by_cases hge : (acc.length : Int) ≥ m
      · cases h <;> (simp only [ddgLoop] at hr; rw [if_pos hge] at hr) <;>
          exact Or.inl hr
      · cases h with
        | noLink =>
            simp only [ddgLoop] at hr; rw [if_neg hge] at hr
            exact ih acc r hr
        | parseError =>
            simp only [ddgLoop] at hr; rw [if_neg hge] at hr
            exact ih acc r hr
        | hit href title body =>
            simp only [ddgLoop] at hr
            rw [if_neg hge] at hr
            by_cases hc : href ≠ "" ∧ title ≠ ""
            · rw [if_pos hc] at hr
              rcases ih _ r hr with hin | hgood
              · rw [List.mem_append, List.mem_singleton] at hin
                rcases hin with hin | rfl
                · exact Or.inl hin
                · exact Or.inr ⟨hc.2, hc.1⟩
              · exact Or.inr hgood
            · rw [if_neg hc] at hr
              exact ih acc r hr

lemma search_mem (page : Page) (m : Int) (r : SearchResult)
    (h : r ∈ search_duckduckgo page m) : r.title ≠ "" ∧ r.href ≠ "" := by
  cases page with
  | fail => simp [search_duckduckgo] at h
  | ok hits =>
      rcases ddgLoop_mem m hits [] r h with hin | hgood
      · simp at hin
      · exact hgood

/-- C1 (counterexample): `perform_osint` does *not* reject invalid tuning
parameters before backend calls.  With the invalid `max_results = 0` it
dispatches all 10 queries to the backend and completes normally (no
`ConfigurationError`, no exception), and with the invalid `delay = -1` it
raises a `ValueError` (not a `ConfigurationError`) from `time.sleep` only
*after* the first backend call has been made. -/
theorem C1_counterexample :
    (perform_osint_run (fun _ => Page.ok []) "+34123456789" none 0 0).raised =
      none ∧
    (perform_osint_run (fun _ => Page.ok []) "+34123456789" none 0 0).calls.length
      = 10 ∧
    (perform_osint_run (fun _ => Page.ok []) "+34123456789" none 5 (-1)).raised =
      some "ValueError" ∧
    (perform_osint_run (fun _ => Page.ok []) "+34123456789" none 5 (-1)).calls =
      ["\"+34123456789\""] := by
  refine ⟨rfl, rfl, rfl, rfl⟩

/-- C1 (amended): the pre-flight rejection of invalid tuning parameters lives
in the CLI `scan` command, not in `perform_osint`.  When `scan` is reached
with numbers, without interactive mode, with ethics agreed and `--osint`
set, `osint_max < 1` or `osint_delay < 0` exits before `run_scan` (and hence
before any backend call); `perform_osint` itself performs no validation: for
any `max_results` (valid or not) and any non-negative `delay` it dispatches
every query to the backend and finishes without raising. -/
theorem C1_theorem (numbers : List String) (osint_max : Int) (osint_delay : ℚ)
    (backend : String → Page) (e164 : String) (intl : Option String)
    (max_results : Int) (delay : ℚ)
    (hn : numbers ≠ []) (hp : osint_max < 1 ∨ osint_delay < 0)
    (hd : 0 ≤ delay) :
    scan_dispatch numbers false true true osint_max osint_delay =
      ScanOutcome.paramExit ∧
    (perform_osint_run backend e164 intl max_results delay).raised = none ∧
    (perform_osint_run backend e164 intl max_results delay).calls =
      build_osint_queries e164 intl := by
  refine ⟨?_, ?_, ?_⟩
  · have h1 : numbers.isEmpty = false := by
      cases numbers with
      | nil => exact absurd rfl hn
      | cons a l => rfl
    simp [scan_dispatch, h1, hp]
  · simp [perform_osint_run, performGo_nonneg backend max_results hd]
  · simp [perform_osint_run, performGo_nonneg backend max_results hd]

/-- C1 (witness): with one number, ethics agreed, `--osint` and the invalid
`osint_max = 0`, `scan` exits before `run_scan`; and `perform_osint` with the
same invalid `max_results = 0` still dispatches the full query list. -/
theorem C1_witness :
    scan_dispatch ["+34123456789"] false true true 0 0 =
      ScanOutcome.paramExit ∧
    (perform_osint_run (fun _ => Page.ok []) "+34123456789" none 0 0).raised =
      none ∧
    (perform_osint_run (fun _ => Page.ok []) "+34123456789" none 0 0).calls =
      build_osint_queries "+34123456789" none :=
  C1_theorem ["+34123456789"] 0 0 (fun _ => Page.ok []) "+34123456789" none 0 0
    (by decide) (Or.inl (by norm_num)) (le_refl 0)

/-- C2 (counterexample): `search_duckduckgo` does not fail with a
`BackendError` on a failed query — it catches the exception and returns the
empty list, the very same value it returns for a page with zero hits, so a
backend failure is *not* distinguishable from a query that legitimately
returned zero results. -/
theorem C2_counterexample :
    search_duckduckgo Page.fail 5 = search_duckduckgo (Page.ok []) 5 ∧
    search_duckduckgo Page.fail 5 = [] := ⟨rfl, rfl⟩

/-- C2 (amended): `search_duckduckgo` never raises: on any failure of the
HTTP request or of the page parse it logs and returns the empty list, and a
query with zero hits also returns the empty list — the two outcomes are
identical for the caller. -/
theorem C2_theorem (max_results : Int) :
    search_duckduckgo Page.fail max_results = [] ∧
    search_duckduckgo (Page.ok []) max_results = [] :=
  ⟨rfl, rfl⟩

/-- C3: when the backend fails on some queries and succeeds on the rest,
`perform_osint` (run with a valid, non-negative delay) does not raise,
iterates over every query, and its output is the concatenation of the
per-query blocks, where each failing query contributes the empty block. -/
theorem C3_theorem (backend : String → Page) (e164 : String)
    (intl : Option String) (max_results : Int) (delay : ℚ) (hd : 0 ≤ delay) :
    (perform_osint_run backend e164 intl max_results delay).raised = none ∧
    (perform_osint_run backend e164 intl max_results delay).calls =
      build_osint_queries e164 intl ∧
    (perform_osint_run backend e164 intl max_results delay).records =
      (build_osint_queries e164 intl).flatMap (queryBlock backend max_results) ∧
    ∀ q, backend q = Page.fail → queryBlock backend max_results q = [] := by
  refine ⟨?_, ?_, ?_, ?_⟩
  · simp [perform_osint_run, performGo_nonneg backend max_results hd]
  · simp [perform_osint_run, performGo_nonneg backend max_results hd]
  · simp [perform_osint_run, performGo_nonneg backend max_results hd]
  · intro q hq
    simp [queryBlock, hq, search_duckduckgo]

/-- C3 (witness): a backend stub failing on the `twitter` query and
succeeding elsewhere — `perform_osint` does not raise, visits every query
and returns exactly the concatenation of the per-query blocks. -/
theorem C3_witness :
    (perform_osint_run
        (fun q => if q = "+34123456789 twitter" then Page.fail
          else Page.ok [RawHit.hit "https://example.com" "Example" "snippet"])
        "+34123456789" none 5 0).raised = none ∧
    (perform_osint_run
        (fun q => if q = "+34123456789 twitter" then Page.fail
          else Page.ok [RawHit.hit "https://example.com" "Example" "snippet"])
        "+34123456789" none 5 0).calls =
      build_osint_queries "+34123456789" none ∧
    (perform_osint_run
        (fun q => if q = "+34123456789 twitter" then Page.fail
          else Page.ok [RawHit.hit "https://example.com" "Example" "snippet"])
        "+34123456789" none 5 0).records =
      (build_osint_queries "+34123456789" none).flatMap
        (queryBlock
          (fun q => if q = "+34123456789 twitter" then Page.fail
            else Page.ok [RawHit.hit "https://example.com" "Example" "snippet"])
          5) :=
  ⟨(C3_theorem _ "+34123456789" none 5 0 (le_refl 0)).1,
   (C3_theorem _ "+34123456789" none 5 0 (le_refl 0)).2.1,
   (C3_theorem _ "+34123456789" none 5 0 (le_refl 0)).2.2.1⟩

/-- C4: `build_osint_queries` is pure and deterministic — its output depends
only on the pair `(e164, intl)`: two calls on (syntactically) identical
inputs return identical, identically-ordered lists. -/
theorem C4_theorem (e164 e2 : String) (intl intl2 : Option String)
    (h1 : e164 = e2) (h2 : intl = intl2) :
    build_osint_queries e164 intl = build_osint_queries e2 intl2 := by
  subst h1; subst h2; rfl

/-- C4 (witness): two calls on the same concrete input agree. -/
theorem C4_witness :
    build_osint_queries "+34123456789" (some "+34 123 456 789") =
      build_osint_queries "+34123456789" (some "+34 123 456 789") :=
  C4_theorem "+34123456789" "+34123456789"
    (some "+34 123 456 789") (some "+34 123 456 789") rfl rfl

/-- C5: on the concrete input the query list starts with the quoted `e164`
and the quoted international format, followed by the 9 fixed site/context
queries, all unique, total length 2 + 9 = 11. -/
theorem C5_theorem :
    build_osint_queries "+34123456789" (some "+34 123 456 789") =
      ["\"+34123456789\"", "\"+34 123 456 789\"",
       "+34123456789 facebook", "+34123456789 twitter",
       "+34123456789 instagram", "+34123456789 whatsapp",
       "+34123456789 \"contacto\"", "+34123456789 \"teléfono\"",
       "+34123456789 site:pastebin.com", "+34123456789 site:reddit.com",
       "+34123456789 site:linkedin.com"] ∧
    (build_osint_queries "+34123456789" (some "+34 123 456 789")).length =
      2 + 9 ∧
    (build_osint_queries "+34123456789" (some "+34 123 456 789")).Nodup := by
  refine ⟨by rfl, by rfl, by decide⟩

/-- C6: for every input, the list returned by `build_osint_queries` has no
two equal entries, and it equals the first-occurrence-wins deduplication of
the raw query list (insertion order preserved, first occurrence wins). -/
theorem C6_theorem (e164 : String) (intl : Option String) :
    (build_osint_queries e164 intl).Nodup ∧
    build_osint_queries e164 intl = firstWins (rawQueries e164 intl) :=
  ⟨build_nodup e164 intl, build_eq_firstWins e164 intl⟩

/-- C7: with a positive cap, `search_duckduckgo` returns at most
`max_results` results, and hence each per-query block of `perform_osint`
holds at most `max_results` records, even when the page has more hits. -/
theorem C7_theorem (max_results : Int) (hm : 0 < max_results) :
    (∀ page, ((search_duckduckgo page max_results).length : Int) ≤
      max_results) ∧
    (∀ (backend : String → Page) (q : String),
      ((queryBlock backend max_results q).length : Int) ≤ max_results) := by
  have hsearch : ∀ page,
      ((search_duckduckgo page max_results).length : Int) ≤ max_results := by
    intro page
    cases page with
    | fail =>
        simp only [search_duckduckgo, List.length_nil, Nat.cast_zero]
        omega
    | ok hits =>
        apply ddgLoop_length_le
        simp only [List.length_nil, Nat.cast_zero]
        omega
  refine ⟨hsearch, ?_⟩
  intro backend q
  rw [queryBlock, List.length_map]
  exact hsearch (backend q)

/-- C7 (witness): a page with 10 hits and cap 3 yields at most 3 results. -/
theorem C7_witness :
    ((search_duckduckgo
        (Page.ok (List.replicate 10
          (RawHit.hit "https://example.com" "Example" "snippet"))) 3).length :
      Int) ≤ 3 :=
  (C7_theorem 3 (by norm_num)).1
    (Page.ok (List.replicate 10
      (RawHit.hit "https://example.com" "Example" "snippet")))

/-- C8: for every successful run (non-negative delay), the output of
`perform_osint` is the concatenation, in query-list order, of the per-query
blocks, each block listing the backend results in backend order, each record
tagged with the query that produced it. -/
theorem C8_theorem (backend : String → Page) (e164 : String)
    (intl : Option String) (max_results : Int) (delay : ℚ) (hd : 0 ≤ delay) :
    (perform_osint_run backend e164 intl max_results delay).records =
      (build_osint_queries e164 intl).flatMap
        (fun q => (search_duckduckgo (backend q) max_results).map
          (tagRecord q)) := by
  simp only [perform_osint_run, performGo_nonneg backend max_results hd]
  simp only [List.nil_append]
  congr 1

/-- C8 (witness): a stub backend returning one hit per query — the output is
exactly the per-query concatenation of tagged records. -/
theorem C8_witness :
    (perform_osint_run
        (fun _ => Page.ok [RawHit.hit "https://example.com" "Example" "s"])
        "+34123456789" none 5 0).records =
      (build_osint_queries "+34123456789" none).flatMap
        (fun q => (search_duckduckgo
          ((fun _ => Page.ok [RawHit.hit "https://example.com" "Example" "s"])
            q) 5).map (tagRecord q)) :=
  C8_theorem (fun _ => Page.ok [RawHit.hit "https://example.com" "Example" "s"])
    "+34123456789" none 5 0 (le_refl 0)

/-- C9: for every run with a valid (non-negative) delay, the pacing sleep is
executed exactly once per query — including after the last one — regardless
of whether each query succeeded or failed: the sleep count equals the length
of the query list. -/
theorem C9_theorem (backend : String → Page) (e164 : String)
    (intl : Option String) (max_results : Int) (delay : ℚ) (hd : 0 ≤ delay) :
    (perform_osint_run backend e164 intl max_results delay).sleeps =
      (build_osint_queries e164 intl).length := by
  simp [perform_osint_run, performGo_nonneg backend max_results hd]

/-- C9 (witness): with a backend failing on every query, the sleep still runs
once per query. -/
theorem C9_witness :
    (perform_osint_run (fun _ => Page.fail) "+34123456789" none 5 0).sleeps =
      (build_osint_queries "+34123456789" none).length :=
  C9_theorem (fun _ => Page.fail) "+34123456789" none 5 0 (le_refl 0)

/-- C10: every result of `search_duckduckgo`, and hence every record of
`perform_osint`, has a non-empty title and a non-empty href; parsed hits with
a missing/empty href or title are silently dropped; the body field is always
present but may be the empty string. -/
theorem C10_theorem :
    (∀ (page : Page) (max_results : Int) (r : SearchResult),
        r ∈ search_duckduckgo page max_results →
        r.title ≠ "" ∧ r.href ≠ "") ∧
    (∀ (backend : String → Page) (e164 : String) (intl : Option String)
        (max_results : Int) (delay : ℚ) (rec : OsintRecord),
        rec ∈ (perform_osint_run backend e164 intl max_results delay).records →
        rec.title ≠ "" ∧ rec.href ≠ "") ∧
    search_duckduckgo (Page.ok [RawHit.hit "" "TitleOnly" "b",
      RawHit.hit "https://example.com" "" "b"]) 5 = [] ∧
    search_duckduckgo (Page.ok [RawHit.hit "https://example.com" "Example" ""])
      5 = [⟨"Example", "https://example.com", ""⟩] := by
  refine ⟨?_, ?_, by rfl, by rfl⟩
  · intro page max_results r h
    exact search_mem page max_results r h
  · intro backend e164 intl max_results delay rec h
    rcases performGo_records_mem backend max_results delay _ _ _ _ rec h with
      hin | ⟨q, r, hr, rfl⟩
    · simp at hin
    · have := search_mem (backend q) max_results r hr
      simpa [tagRecord] using this

/-- C10 (witness): the single kept record of a concrete page has non-empty
title and href (its body is empty). -/
theorem C10_witness :
    (⟨"Example", "https://example.com", ""⟩ : SearchResult).title ≠ "" ∧
    (⟨"Example", "https://example.com", ""⟩ : SearchResult).href ≠ "" :=
  C10_theorem.1 (Page.ok [RawHit.hit "https://example.com" "Example" ""]) 5
    ⟨"Example", "https://example.com", ""⟩ (by decide)

end Nunmerdox
